import Mathlib

/-!
Verification of the steel-selection engine of `src/app.py`.

The script's core (lines 64-119) derives, from three scalar design inputs
and a frame of material records, per-record boolean admission flags and
derived indices, then displays the admitted rows sorted by two keys.
Numbers are embedded as rationals (`ℚ`); the one place the script's float
arithmetic can produce an infinity — `Yield_Strength / UTS` when `UTS = 0`,
which numpy maps to `+inf` for the positive yield strengths the data model
guarantees — is embedded as `WithTop ℚ`, whose `⊤` plays the role of the
positive-infinity sentinel (`⊤` is the top of the order, so it sorts last
under an ascending key, as `+inf` does in pandas).

The plain-Python division `allowable_stress = required_yield / fos`
(line 64) raises `ZeroDivisionError` when `fos = 0`, before any per-record
work happens; `evaluate` therefore returns `Except.error` in that case and
otherwise the full `RankedResult`.

`sort_values` with a list of two `by` keys uses pandas' lexicographic
indexer, which is a stable sort; it is embedded as `List.insertionSort`
(stable) over the lexicographic comparison `rankLe`.
-/

/-- A material record as loaded by `load_data` (src/app.py lines 19-25):
the spreadsheet columns used by the engine plus the constant density
column, together with the stable id the ingestion layer assigns
(positional index at load time). -/
structure MaterialRecord where
  id : ℕ
  Yield_Strength : ℚ
  UTS : ℚ
  Density : ℚ
  deriving DecidableEq

/-- A record enriched with the flag columns of lines 86-90 and the index
columns of lines 96-98 of src/app.py. -/
structure EnrichedRecord where
  id : ℕ
  Yield_Strength : ℚ
  UTS : ℚ
  Density : ℚ
  Strength_OK : Bool
  UTS_OK : Bool
  Safety_OK : Bool
  Selected : Bool
  Ashby_Strength_Density : ℚ
  Yield_to_UTS_Ratio : WithTop ℚ
  Safety_Index : WithTop ℚ
  deriving DecidableEq

/-- The engine's output: every enriched record in input order (the full
frame `df`, used by the scatter plot), and the admitted rows sorted for
the table (lines 113-119 of src/app.py). -/
structure RankedResult where
  all : List EnrichedRecord
  admitted : List EnrichedRecord
  deriving DecidableEq

/-- Lines 64 and 86-98 of src/app.py applied to one record:
`allowable_stress = required_yield / fos`, the three boolean checks, their
conjunction `Selected`, and the three derived indices, computed whether or
not the record is admitted.  `Yield_to_UTS_Ratio` is `⊤` when `UTS = 0`
(numpy gives `+inf` there for the positive yield strengths of the data
model); `Safety_Index` likewise when `allowable_stress = 0`. -/
def enrich (required_yield required_uts fos : ℚ) (r : MaterialRecord) :
    EnrichedRecord :=
  let allowable_stress := required_yield / fos
  { id := r.id
    Yield_Strength := r.Yield_Strength
    UTS := r.UTS
    Density := r.Density
    Strength_OK := decide (required_yield ≤ r.Yield_Strength)
    UTS_OK := decide (required_uts ≤ r.UTS)
    Safety_OK := decide (allowable_stress ≤ r.Yield_Strength)
    Selected := decide (required_yield ≤ r.Yield_Strength) &&
      decide (required_uts ≤ r.UTS) &&
      decide (allowable_stress ≤ r.Yield_Strength)
    Ashby_Strength_Density := r.Yield_Strength / r.Density
    Yield_to_UTS_Ratio :=
      if r.UTS = 0 then ⊤ else ((r.Yield_Strength / r.UTS : ℚ) : WithTop ℚ)
    Safety_Index :=
      if allowable_stress = 0 then ⊤
      else ((r.Yield_Strength / allowable_stress : ℚ) : WithTop ℚ) }

/-- The comparison of the two-key sort of lines 113-118 of src/app.py:
`Ashby_Strength_Density` descending first, then `Yield_to_UTS_Ratio`
ascending.  `rankLe a b` holds when row `a` may come at or before row `b`. -/
def rankLe (a b : EnrichedRecord) : Prop :=
  b.Ashby_Strength_Density < a.Ashby_Strength_Density ∨
    (a.Ashby_Strength_Density = b.Ashby_Strength_Density ∧
      a.Yield_to_UTS_Ratio ≤ b.Yield_to_UTS_Ratio)

instance : DecidableRel rankLe := fun a b => by
  unfold rankLe; infer_instance

/-- The engine's whole per-evaluation computation for a nonzero factor of
safety: enrich every record in input order, filter the admitted ones
(line 103), and sort them stably by the two keys (lines 113-118; pandas'
multi-key `sort_values` is the stable lexicographic sort). -/
def rankedResult (records : List MaterialRecord)
    (required_yield required_uts fos : ℚ) : RankedResult :=
  let all := records.map (enrich required_yield required_uts fos)
  { all := all
    admitted := List.insertionSort rankLe (all.filter fun e => e.Selected) }

/-- One full evaluation of the script's core on given inputs.  The
plain-Python division on line 64 raises `ZeroDivisionError` when the
factor of safety is zero, before any column is computed, so no partial
result exists in that case. -/
def evaluate (records : List MaterialRecord)
    (required_yield required_uts fos : ℚ) : Except String RankedResult :=
  if fos = 0 then .error "ZeroDivisionError: float division by zero"
  else .ok (rankedResult records required_yield required_uts fos)

/-- Modelled from the spec: `findById` (spec §4.2) — the repository's code
has no id-based lookup; the spec requires an exact match on the stable
`id` field, returning a `NotFound` outcome (here `none`) for a missing id
instead of throwing. -/
def findById (all : List EnrichedRecord) (i : ℕ) : Option EnrichedRecord :=
  all.find? fun e => e.id = i

/-- The click-highlight lookup of src/app.py lines 155-157: the event's
`pointIndex` is used positionally, `df.iloc[[idx]]`.  `none` embeds the
`IndexError` pandas raises for an out-of-range position. -/
def highlightClicked (all : List EnrichedRecord) (pointIndex : ℕ) :
    Option EnrichedRecord :=
  all.get? pointIndex

/-- The index a plotly click event reports for the row at position `i` of
the frame: `px.scatter` with `color="Selected"` (src/app.py lines 126-142)
splits the rows into one trace per color value, keeping row order inside
each trace, and the event's `pointIndex` counts within the clicked row's
own trace. -/
def pointIndexInTrace (all : List EnrichedRecord) (i : ℕ) (sel : Bool) : ℕ :=
  ((all.take i).filter fun e => e.Selected = sel).length

/-- Two records used to instantiate the universally quantified theorems
(the end-to-end scenario of spec §8). -/
def demoRecords : List MaterialRecord :=
  [⟨0, 250, 400, 7850⟩, ⟨1, 500, 600, 7850⟩]

/-- Four records whose admission pattern at `requiredYield = 100`,
`requiredUTS = 100`, `fos = 2` is `[false, true, false, true]`: the
id-stability scenario of spec §8, with only ids 1 and 3 admitted. -/
def clickRecords : List MaterialRecord :=
  [⟨0, 40, 200, 7850⟩, ⟨1, 150, 200, 7850⟩,
    ⟨2, 120, 50, 7850⟩, ⟨3, 200, 300, 7850⟩]

/-- Two records of which the second has `UTS = 0`, for the
division-by-zero sentinel scenario of spec §7. -/
def sentinelRecords : List MaterialRecord :=
  [⟨0, 250, 400, 7850⟩, ⟨1, 300, 0, 7850⟩]

/-! ### Basic facts about `evaluate` and `rankedResult` -/

lemma evaluate_ok (records : List MaterialRecord) (rY rU fos : ℚ)
    (hfos : fos ≠ 0) :
    evaluate records rY rU fos = .ok (rankedResult records rY rU fos) := by
  simp [evaluate, hfos]

lemma evaluate_ok_elim {records : List MaterialRecord} {rY rU fos : ℚ}
    {res : RankedResult} (hfos : fos ≠ 0)
    (hres : evaluate records rY rU fos = .ok res) :
    res = rankedResult records rY rU fos := by
  rw [evaluate_ok records rY rU fos hfos] at hres
  injection hres with h
  exact h.symm

lemma rankedResult_all (records : List MaterialRecord) (rY rU fos : ℚ) :
    (rankedResult records rY rU fos).all =
      records.map (enrich rY rU fos) := rfl

lemma rankedResult_admitted (records : List MaterialRecord) (rY rU fos : ℚ) :
    (rankedResult records rY rU fos).admitted =
      List.insertionSort rankLe
        (((rankedResult records rY rU fos).all.filter fun e => e.Selected)) :=
  rfl

lemma rankedResult_all_length (records : List MaterialRecord)
    (rY rU fos : ℚ) :
    (rankedResult records rY rU fos).all.length = records.length := by
  simp [rankedResult_all]

lemma rankedResult_all_get (records : List MaterialRecord) (rY rU fos : ℚ)
    (i : ℕ) (hi : i < records.length)
    (hia : i < (rankedResult records rY rU fos).all.length) :
    (rankedResult records rY rU fos).all.get ⟨i, hia⟩ =
      enrich rY rU fos (records.get ⟨i, hi⟩) := by
  simp [rankedResult_all]

lemma enrich_Strength_OK (rY rU fos : ℚ) (r : MaterialRecord) :
    (enrich rY rU fos r).Strength_OK = true ↔ rY ≤ r.Yield_Strength := by
  simp [enrich]

lemma enrich_UTS_OK (rY rU fos : ℚ) (r : MaterialRecord) :
    (enrich rY rU fos r).UTS_OK = true ↔ rU ≤ r.UTS := by
  simp [enrich]

lemma enrich_Safety_OK (rY rU fos : ℚ) (r : MaterialRecord) :
    (enrich rY rU fos r).Safety_OK = true ↔ rY / fos ≤ r.Yield_Strength := by
  simp [enrich]

lemma enrich_Selected (rY rU fos : ℚ) (r : MaterialRecord) :
    (enrich rY rU fos r).Selected = true ↔
      ((enrich rY rU fos r).Strength_OK = true ∧
        (enrich rY rU fos r).UTS_OK = true ∧
        (enrich rY rU fos r).Safety_OK = true) := by
  simp [enrich, and_assoc]

lemma enrich_id (rY rU fos : ℚ) (r : MaterialRecord) :
    (enrich rY rU fos r).id = r.id := rfl

/-! ### Claim theorems -/

/-- C1: for every record and inputs with `factorOfSafety ≠ 0`, `evaluate`
computes `allowableStress = requiredYield / factorOfSafety`,
`strengthOK = (yieldStrength ≥ requiredYield)`, `utsOK = (uts ≥ requiredUTS)`,
`safetyOK = (yieldStrength ≥ allowableStress)` — the record's own yield
strength against the allowable stress derived from the requirement — and
`admitted = strengthOK AND utsOK AND safetyOK`. -/
theorem evaluate_rule_fields (records : List MaterialRecord)
    (rY rU fos : ℚ) (res : RankedResult) (hfos : fos ≠ 0)
    (hres : evaluate records rY rU fos = .ok res)
    (i : ℕ) (hi : i < records.length) (hia : i < res.all.length) :
    ((res.all.get ⟨i, hia⟩).Strength_OK = true ↔
        (records.get ⟨i, hi⟩).Yield_Strength ≥ rY) ∧
    ((res.all.get ⟨i, hia⟩).UTS_OK = true ↔
        (records.get ⟨i, hi⟩).UTS ≥ rU) ∧
    ((res.all.get ⟨i, hia⟩).Safety_OK = true ↔
        (records.get ⟨i, hi⟩).Yield_Strength ≥ rY / fos) ∧
    ((res.all.get ⟨i, hia⟩).Selected = true ↔
        ((res.all.get ⟨i, hia⟩).Strength_OK = true ∧
          (res.all.get ⟨i, hia⟩).UTS_OK = true ∧
          (res.all.get ⟨i, hia⟩).Safety_OK = true)) := by
  have h := evaluate_ok_elim hfos hres
  subst h
  rw [rankedResult_all_get records rY rU fos i hi hia]
  simp only [ge_iff_le]
  exact ⟨enrich_Strength_OK rY rU fos _, enrich_UTS_OK rY rU fos _,
    enrich_Safety_OK rY rU fos _, enrich_Selected rY rU fos _⟩

theorem evaluate_rule_fields_witness :
    ((3 : ℚ) / 2 ≠ 0) ∧
    (evaluate [⟨0, 250, 400, 7850⟩] 200 300 (3 / 2) =
        .ok (rankedResult [⟨0, 250, 400, 7850⟩] 200 300 (3 / 2))) ∧
    ((((rankedResult [⟨0, 250, 400, 7850⟩] 200 300 (3 / 2)).all.get
          ⟨0, by simp [rankedResult_all]⟩).Strength_OK = true ↔
        (([⟨0, 250, 400, 7850⟩] : List MaterialRecord).get
          ⟨0, by simp⟩).Yield_Strength ≥ 200) ∧
      (((rankedResult [⟨0, 250, 400, 7850⟩] 200 300 (3 / 2)).all.get
          ⟨0, by simp [rankedResult_all]⟩).UTS_OK = true ↔
        (([⟨0, 250, 400, 7850⟩] : List MaterialRecord).get
          ⟨0, by simp⟩).UTS ≥ 300) ∧
      (((rankedResult [⟨0, 250, 400, 7850⟩] 200 300 (3 / 2)).all.get
          ⟨0, by simp [rankedResult_all]⟩).Safety_OK = true ↔
        (([⟨0, 250, 400, 7850⟩] : List MaterialRecord).get
          ⟨0, by simp⟩).Yield_Strength ≥ 200 / (3 / 2)) ∧
      (((rankedResult [⟨0, 250, 400, 7850⟩] 200 300 (3 / 2)).all.get
          ⟨0, by simp [rankedResult_all]⟩).Selected = true ↔
        (((rankedResult [⟨0, 250, 400, 7850⟩] 200 300 (3 / 2)).all.get
            ⟨0, by simp [rankedResult_all]⟩).Strength_OK = true ∧
          ((rankedResult [⟨0, 250, 400, 7850⟩] 200 300 (3 / 2)).all.get
            ⟨0, by simp [rankedResult_all]⟩).UTS_OK = true ∧
          ((rankedResult [⟨0, 250, 400, 7850⟩] 200 300 (3 / 2)).all.get
            ⟨0, by simp [rankedResult_all]⟩).Safety_OK = true))) :=
  ⟨by norm_num,
    evaluate_ok [⟨0, 250, 400, 7850⟩] 200 300 (3 / 2) (by norm_num),
    evaluate_rule_fields [⟨0, 250, 400, 7850⟩] 200 300 (3 / 2)
      (rankedResult [⟨0, 250, 400, 7850⟩] 200 300 (3 / 2)) (by norm_num)
      (evaluate_ok [⟨0, 250, 400, 7850⟩] 200 300 (3 / 2) (by norm_num))
      0 (by simp) (by simp [rankedResult_all])⟩

/-- C4: if the factor of safety is zero, `evaluate` fails with the
division-by-zero error for any non-empty record set, returning no partial
result: the plain-Python division on line 64 of src/app.py raises
`ZeroDivisionError` before any column is computed. -/
theorem evaluate_zero_fos_error (records : List MaterialRecord)
    (rY rU : ℚ) (hne : records ≠ []) :
    evaluate records rY rU 0 =
      .error "ZeroDivisionError: float division by zero" := by
  simp [evaluate]

theorem evaluate_zero_fos_error_witness :
    (([⟨0, 250, 400, 7850⟩] : List MaterialRecord) ≠ []) ∧
    evaluate [⟨0, 250, 400, 7850⟩] 200 300 0 =
      .error "ZeroDivisionError: float division by zero" :=
  ⟨by simp, evaluate_zero_fos_error [⟨0, 250, 400, 7850⟩] 200 300 (by simp)⟩

/-- C6: the strength and safety checks are independent: a record with
yield strength 100 evaluated at `requiredYield = 150`,
`factorOfSafety = 2` gets `allowableStress = 75`, fails `Strength_OK`
(100 < 150) yet passes `Safety_OK` (100 ≥ 75), and is not admitted. -/
theorem strength_safety_independent :
    (150 : ℚ) / 2 = 75 ∧
    (enrich 150 0 2 ⟨0, 100, 200, 7850⟩).Strength_OK = false ∧
    (enrich 150 0 2 ⟨0, 100, 200, 7850⟩).Safety_OK = true ∧
    (enrich 150 0 2 ⟨0, 100, 200, 7850⟩).Selected = false := by
  refine ⟨by norm_num, ?_, ?_, ?_⟩ <;> norm_num [enrich]

/-! ### Monotonicity of the admission rules -/

lemma enrich_Selected_mono_req {rY₁ rY₂ rU₁ rU₂ fos : ℚ}
    (r : MaterialRecord) (hfos : 0 < fos) (hY : rY₁ ≤ rY₂) (hU : rU₁ ≤ rU₂)
    (h : (enrich rY₂ rU₂ fos r).Selected = true) :
    (enrich rY₁ rU₁ fos r).Selected = true := by
  simp only [enrich, Bool.and_eq_true, decide_eq_true_eq] at h ⊢
  obtain ⟨⟨h1, h2⟩, h3⟩ := h
  refine ⟨⟨le_trans hY h1, le_trans hU h2⟩, le_trans ?_ h3⟩
  gcongr

lemma enrich_Selected_mono_fos {rY rU fos₁ fos₂ : ℚ} (r : MaterialRecord)
    (hrY : 0 ≤ rY) (h1 : 0 < fos₁) (h2 : fos₁ ≤ fos₂)
    (h : (enrich rY rU fos₁ r).Selected = true) :
    (enrich rY rU fos₂ r).Selected = true := by
  simp only [enrich, Bool.and_eq_true, decide_eq_true_eq] at h ⊢
  obtain ⟨⟨ha, hb⟩, hc⟩ := h
  refine ⟨⟨ha, hb⟩, le_trans ?_ hc⟩
  gcongr

lemma mem_admitted_iff {records : List MaterialRecord} {rY rU fos : ℚ}
    {e : EnrichedRecord} :
    e ∈ (rankedResult records rY rU fos).admitted ↔
      (e ∈ (rankedResult records rY rU fos).all ∧ e.Selected = true) := by
  rw [rankedResult_admitted, List.mem_insertionSort, List.mem_filter]

/-- C5: with the record set, `requiredUTS` and `factorOfSafety` fixed,
raising `requiredYield` never adds an admitted record id, and likewise for
raising `requiredUTS` with the other inputs fixed: the admitted id set can
only shrink or stay equal (stated jointly: raising either or both of the
two requirements shrinks the admitted id set). -/
theorem admitted_ids_antitone_requirements (records : List MaterialRecord)
    (rY₁ rY₂ rU₁ rU₂ fos : ℚ) (hfos : 0 < fos)
    (hY : rY₁ ≤ rY₂) (hU : rU₁ ≤ rU₂) :
    ((rankedResult records rY₂ rU₂ fos).admitted.map fun e => e.id) ⊆
      ((rankedResult records rY₁ rU₁ fos).admitted.map fun e => e.id) := by
  intro n hn
  rw [List.mem_map] at hn ⊢
  obtain ⟨e, he, rfl⟩ := hn
  rw [mem_admitted_iff] at he
  obtain ⟨hall, hsel⟩ := he
  rw [rankedResult_all, List.mem_map] at hall
  obtain ⟨r, hr, rfl⟩ := hall
  refine ⟨enrich rY₁ rU₁ fos r, ?_, rfl⟩
  rw [mem_admitted_iff]
  refine ⟨?_, enrich_Selected_mono_req r hfos hY hU hsel⟩
  rw [rankedResult_all]
  exact List.mem_map_of_mem _ hr

theorem admitted_ids_antitone_requirements_witness :
    ((0 : ℚ) < 2 ∧ (100 : ℚ) ≤ 150 ∧ (300 : ℚ) ≤ 350) ∧
    ((rankedResult [⟨0, 250, 400, 7850⟩, ⟨1, 500, 600, 7850⟩] 150 350 2).admitted.map
        fun e => e.id) ⊆
      ((rankedResult [⟨0, 250, 400, 7850⟩, ⟨1, 500, 600, 7850⟩] 100 300 2).admitted.map
        fun e => e.id) :=
  ⟨⟨by norm_num, by norm_num, by norm_num⟩,
    admitted_ids_antitone_requirements
      [⟨0, 250, 400, 7850⟩, ⟨1, 500, 600, 7850⟩] 100 150 300 350 2
      (by norm_num) (by norm_num) (by norm_num)⟩

/-- C9 (implicit): when `factorOfSafety ≥ 1` and `requiredYield ≥ 0`,
`Strength_OK` implies `Safety_OK` for every record (the allowable stress
`requiredYield / factorOfSafety` is at most `requiredYield`), so admission
reduces to `Strength_OK AND UTS_OK`; under the UI's factor-of-safety
bounds `[1.2, 3.0]` the safety check never excludes a record. -/
theorem strength_implies_safety (r : MaterialRecord) (rY rU fos : ℚ)
    (hfos : 1 ≤ fos) (hrY : 0 ≤ rY) :
    ((enrich rY rU fos r).Strength_OK = true →
      (enrich rY rU fos r).Safety_OK = true) ∧
    ((enrich rY rU fos r).Selected = true ↔
      ((enrich rY rU fos r).Strength_OK = true ∧
        (enrich rY rU fos r).UTS_OK = true)) := by
  have key : rY / fos ≤ rY := div_le_self hrY hfos
  constructor
  · rw [enrich_Strength_OK, enrich_Safety_OK]
    exact fun h => le_trans key h
  · rw [enrich_Selected, enrich_Strength_OK, enrich_UTS_OK, enrich_Safety_OK]
    constructor
    · rintro ⟨h1, h2, _⟩
      exact ⟨h1, h2⟩
    · rintro ⟨h1, h2⟩
      exact ⟨h1, h2, le_trans key h1⟩

theorem strength_implies_safety_witness :
    ((1 : ℚ) ≤ 2 ∧ (0 : ℚ) ≤ 150) ∧
    (((enrich 150 300 2 ⟨0, 250, 400, 7850⟩).Strength_OK = true →
        (enrich 150 300 2 ⟨0, 250, 400, 7850⟩).Safety_OK = true) ∧
      ((enrich 150 300 2 ⟨0, 250, 400, 7850⟩).Selected = true ↔
        ((enrich 150 300 2 ⟨0, 250, 400, 7850⟩).Strength_OK = true ∧
          (enrich 150 300 2 ⟨0, 250, 400, 7850⟩).UTS_OK = true))) :=
  ⟨⟨by norm_num, by norm_num⟩,
    strength_implies_safety ⟨0, 250, 400, 7850⟩ 150 300 2
      (by norm_num) (by norm_num)⟩

/-- C10 (implicit): with the record set, `requiredYield ≥ 0` and
`requiredUTS` fixed, raising the factor of safety over positive values
never removes an admitted record id: the allowable stress
`requiredYield / factorOfSafety` is non-increasing in the factor of
safety and `Safety_OK` is the only check depending on it. -/
theorem admitted_ids_monotone_fos (records : List MaterialRecord)
    (rY rU fos₁ fos₂ : ℚ) (h1 : 0 < fos₁) (h2 : fos₁ ≤ fos₂)
    (hrY : 0 ≤ rY) :
    ((rankedResult records rY rU fos₁).admitted.map fun e => e.id) ⊆
      ((rankedResult records rY rU fos₂).admitted.map fun e => e.id) := by
  intro n hn
  rw [List.mem_map] at hn ⊢
  obtain ⟨e, he, rfl⟩ := hn
  rw [mem_admitted_iff] at he
  obtain ⟨hall, hsel⟩ := he
  rw [rankedResult_all, List.mem_map] at hall
  obtain ⟨r, hr, rfl⟩ := hall
  refine ⟨enrich rY rU fos₂ r, ?_, rfl⟩
  rw [mem_admitted_iff]
  refine ⟨?_, enrich_Selected_mono_fos r hrY h1 h2 hsel⟩
  rw [rankedResult_all]
  exact List.mem_map_of_mem _ hr

/-! ### The two-key sort: totality, transitivity, stability -/

lemma rankLe_total (a b : EnrichedRecord) : rankLe a b ∨ rankLe b a := by
  rcases lt_trichotomy a.Ashby_Strength_Density b.Ashby_Strength_Density with
    h | h | h
  · exact Or.inr (Or.inl h)
  · rcases le_total a.Yield_to_UTS_Ratio b.Yield_to_UTS_Ratio with h2 | h2
    · exact Or.inl (Or.inr ⟨h, h2⟩)
    · exact Or.inr (Or.inr ⟨h.symm, h2⟩)
  · exact Or.inl (Or.inl h)

lemma rankLe_trans (a b c : EnrichedRecord)
    (hab : rankLe a b) (hbc : rankLe b c) : rankLe a c := by
  rcases hab with h1 | ⟨e1, r1⟩ <;> rcases hbc with h2 | ⟨e2, r2⟩
  · exact Or.inl (lt_trans h2 h1)
  · exact Or.inl (e2 ▸ h1)
  · exact Or.inl (e1 ▸ h2)
  · exact Or.inr ⟨e1.trans e2, le_trans r1 r2⟩

/-- Inserting `a` into a list it q-precedes keeps the blended order
"`r`, ties broken by `q`": the key step of stability of insertion sort. -/
lemma orderedInsert_pairwise_stable {α : Type} (r q : α → α → Prop)
    [DecidableRel r]
    (htot : ∀ a b, r a b ∨ r b a)
    (htrans : ∀ a b c, r a b → r b c → r a c)
    (a : α) (l : List α) (ha : ∀ b ∈ l, q a b)
    (hl : l.Pairwise fun x y => r x y ∧ (r y x → q x y)) :
    (l.orderedInsert r a).Pairwise fun x y => r x y ∧ (r y x → q x y) := by
  induction l with
  | nil => simp
  | cons b t ih =>
    simp only [List.orderedInsert]
    split_ifs with hab
    · refine List.Pairwise.cons ?_ hl
      intro x hx
      rcases List.mem_cons.mp hx with rfl | hxt
      · exact ⟨hab, fun _ => ha x (List.mem_cons_self x t)⟩
      · have hbx := (List.pairwise_cons.mp hl).1 x hxt
        exact ⟨htrans a b x hab hbx.1,
          fun _ => ha x (List.mem_cons_of_mem b hxt)⟩
    · have hl' := List.pairwise_cons.mp hl
      refine List.Pairwise.cons ?_
        (ih (fun x hx => ha x (List.mem_cons_of_mem b hx)) hl'.2)
      intro x hx
      rcases (List.mem_orderedInsert r).mp hx with rfl | hxt
      · exact ⟨(htot x b).resolve_left hab, fun hax => absurd hax hab⟩
      · exact hl'.1 x hxt

/-- Insertion sort over a total transitive comparison is stable: if the
input is `q`-increasing, every pair of the output is `r`-ordered and
`q`-ordered whenever the comparison ties. -/
lemma insertionSort_pairwise_stable {α : Type} (r q : α → α → Prop)
    [DecidableRel r]
    (htot : ∀ a b, r a b ∨ r b a)
    (htrans : ∀ a b c, r a b → r b c → r a c)
    (l : List α) (hq : l.Pairwise q) :
    (l.insertionSort r).Pairwise fun x y => r x y ∧ (r y x → q x y) := by
  induction l with
  | nil => simp
  | cons a t ih =>
    simp only [List.insertionSort]
    have hq' := List.pairwise_cons.mp hq
    exact orderedInsert_pairwise_stable r q htot htrans a _
      (fun b hb => hq'.1 b ((List.mem_insertionSort r).mp hb))
      (ih hq'.2)

lemma admitted_pairwise_rankLe (records : List MaterialRecord)
    (rY rU fos : ℚ) :
    (rankedResult records rY rU fos).admitted.Pairwise rankLe := by
  rw [rankedResult_admitted]
  have htriv : ∀ l : List EnrichedRecord,
      l.Pairwise fun _ _ => True := by
    intro l
    induction l with
    | nil => exact .nil
    | cons a t ih => exact .cons (fun _ _ => trivial) ih
  exact (insertionSort_pairwise_stable rankLe (fun _ _ => True)
    rankLe_total rankLe_trans _ (htriv _)).imp fun h => h.1

/-- C2: the admitted rows returned by `evaluate` are sorted with primary
key `Ashby_Strength_Density` descending and secondary key
`Yield_to_UTS_Ratio` ascending, stably: every later row has a strictly
smaller primary key, or an equal primary key and a strictly larger
secondary key, or equal keys and a larger input id (input order, for
ids assigned in input order); and the admitted rows are exactly the
`Selected` rows of the full frame (a permutation of that filter). -/
theorem admitted_sorted_stable (records : List MaterialRecord)
    (rY rU fos : ℚ) (res : RankedResult) (hfos : fos ≠ 0)
    (hres : evaluate records rY rU fos = .ok res)
    (hids : records.Pairwise fun a b => a.id < b.id) :
    res.admitted.Perm (res.all.filter fun e => e.Selected) ∧
    res.admitted.Pairwise fun a b =>
      b.Ashby_Strength_Density < a.Ashby_Strength_Density ∨
      (a.Ashby_Strength_Density = b.Ashby_Strength_Density ∧
        a.Yield_to_UTS_Ratio < b.Yield_to_UTS_Ratio) ∨
      (a.Ashby_Strength_Density = b.Ashby_Strength_Density ∧
        a.Yield_to_UTS_Ratio = b.Yield_to_UTS_Ratio ∧ a.id < b.id) := by
  have h := evaluate_ok_elim hfos hres
  subst h
  constructor
  · rw [rankedResult_admitted]
    exact List.perm_insertionSort rankLe _
  · have hq : ((rankedResult records rY rU fos).all.filter
        fun e => e.Selected).Pairwise
          (fun a b : EnrichedRecord => a.id < b.id) := by
      apply List.Pairwise.filter
      rw [rankedResult_all, List.pairwise_map]
      exact hids.imp fun {a b} h => by simpa [enrich_id] using h
    have hs := insertionSort_pairwise_stable rankLe
      (fun a b : EnrichedRecord => a.id < b.id)
      rankLe_total rankLe_trans _ hq
    rw [rankedResult_admitted]
    refine hs.imp ?_
    rintro a b ⟨hab, hstab⟩
    rcases hab with h1 | ⟨he, hr⟩
    · exact Or.inl h1
    · rcases lt_or_eq_of_le hr with h2 | h2
      · exact Or.inr (Or.inl ⟨he, h2⟩)
      · exact Or.inr (Or.inr ⟨he, h2,
          hstab (Or.inr ⟨he.symm, le_of_eq h2.symm⟩)⟩)

theorem admitted_ids_monotone_fos_witness :
    ((0 : ℚ) < 2 ∧ (2 : ℚ) ≤ 3 ∧ (0 : ℚ) ≤ 100) ∧
    ((rankedResult [⟨0, 250, 400, 7850⟩, ⟨1, 500, 600, 7850⟩] 100 300 2).admitted.map
        fun e => e.id) ⊆
      ((rankedResult [⟨0, 250, 400, 7850⟩, ⟨1, 500, 600, 7850⟩] 100 300 3).admitted.map
        fun e => e.id) :=
  ⟨⟨by norm_num, by norm_num, by norm_num⟩,
    admitted_ids_monotone_fos
      [⟨0, 250, 400, 7850⟩, ⟨1, 500, 600, 7850⟩] 100 300 2 3
      (by norm_num) (by norm_num) (by norm_num)⟩

theorem admitted_sorted_stable_witness :
    (demoRecords.Pairwise fun a b => a.id < b.id) ∧
    ((rankedResult demoRecords 200 300 2).admitted.Perm
        ((rankedResult demoRecords 200 300 2).all.filter fun e => e.Selected) ∧
      (rankedResult demoRecords 200 300 2).admitted.Pairwise fun a b =>
        b.Ashby_Strength_Density < a.Ashby_Strength_Density ∨
        (a.Ashby_Strength_Density = b.Ashby_Strength_Density ∧
          a.Yield_to_UTS_Ratio < b.Yield_to_UTS_Ratio) ∨
        (a.Ashby_Strength_Density = b.Ashby_Strength_Density ∧
          a.Yield_to_UTS_Ratio = b.Yield_to_UTS_Ratio ∧ a.id < b.id)) :=
  ⟨by simp [demoRecords],
    admitted_sorted_stable demoRecords 200 300 2
      (rankedResult demoRecords 200 300 2) (by norm_num)
      (evaluate_ok demoRecords 200 300 2 (by norm_num))
      (by simp [demoRecords])⟩

/-! ### Derived indices -/

lemma enrich_Ashby (rY rU fos : ℚ) (r : MaterialRecord) :
    (enrich rY rU fos r).Ashby_Strength_Density =
      r.Yield_Strength / r.Density := rfl

lemma enrich_Ratio_of_ne (rY rU fos : ℚ) (r : MaterialRecord)
    (h : r.UTS ≠ 0) :
    (enrich rY rU fos r).Yield_to_UTS_Ratio =
      ((r.Yield_Strength / r.UTS : ℚ) : WithTop ℚ) := by
  simp [enrich, h]

lemma enrich_Ratio_top (rY rU fos : ℚ) (r : MaterialRecord)
    (h : r.UTS = 0) :
    (enrich rY rU fos r).Yield_to_UTS_Ratio = ⊤ := by
  simp [enrich, h]

lemma enrich_Safety_Index_of_ne (rY rU fos : ℚ) (r : MaterialRecord)
    (h : rY / fos ≠ 0) :
    (enrich rY rU fos r).Safety_Index =
      ((r.Yield_Strength / (rY / fos) : ℚ) : WithTop ℚ) := by
  simp [enrich, h]

/-- C7: for valid inputs `evaluate` enriches every record — admitted or
not — with `Ashby_Strength_Density = yieldStrength / density`,
`Safety_Index = yieldStrength / allowableStress` and
`Yield_to_UTS_Ratio = yieldStrength / uts`, and the `all` output lists
every input record so enriched, in input order (same length, and the row
at each position enriches the input record at that position, same id). -/
theorem evaluate_all_enriched (records : List MaterialRecord)
    (rY rU fos : ℚ) (res : RankedResult) (hfos : fos ≠ 0)
    (hres : evaluate records rY rU fos = .ok res)
    (i : ℕ) (hi : i < records.length) (hia : i < res.all.length) :
    res.all.length = records.length ∧
    (res.all.get ⟨i, hia⟩).id = (records.get ⟨i, hi⟩).id ∧
    (res.all.get ⟨i, hia⟩).Ashby_Strength_Density =
      (records.get ⟨i, hi⟩).Yield_Strength /
        (records.get ⟨i, hi⟩).Density ∧
    ((records.get ⟨i, hi⟩).UTS ≠ 0 →
      (res.all.get ⟨i, hia⟩).Yield_to_UTS_Ratio =
        (((records.get ⟨i, hi⟩).Yield_Strength /
            (records.get ⟨i, hi⟩).UTS : ℚ) : WithTop ℚ)) ∧
    (rY / fos ≠ 0 →
      (res.all.get ⟨i, hia⟩).Safety_Index =
        (((records.get ⟨i, hi⟩).Yield_Strength / (rY / fos) : ℚ) :
          WithTop ℚ)) := by
  have h := evaluate_ok_elim hfos hres
  subst h
  rw [rankedResult_all_get records rY rU fos i hi hia]
  exact ⟨rankedResult_all_length records rY rU fos,
    enrich_id rY rU fos _,
    enrich_Ashby rY rU fos _,
    fun h => enrich_Ratio_of_ne rY rU fos _ h,
    fun h => enrich_Safety_Index_of_ne rY rU fos _ h⟩

theorem evaluate_all_enriched_witness :
    ((2 : ℚ) ≠ 0) ∧
    ((rankedResult demoRecords 200 300 2).all.length = demoRecords.length ∧
      ((rankedResult demoRecords 200 300 2).all.get
          ⟨0, by simp [rankedResult_all, demoRecords]⟩).id =
        (demoRecords.get ⟨0, by simp [demoRecords]⟩).id ∧
      ((rankedResult demoRecords 200 300 2).all.get
          ⟨0, by simp [rankedResult_all, demoRecords]⟩).Ashby_Strength_Density =
        (demoRecords.get ⟨0, by simp [demoRecords]⟩).Yield_Strength /
          (demoRecords.get ⟨0, by simp [demoRecords]⟩).Density ∧
      ((demoRecords.get ⟨0, by simp [demoRecords]⟩).UTS ≠ 0 →
        ((rankedResult demoRecords 200 300 2).all.get
            ⟨0, by simp [rankedResult_all, demoRecords]⟩).Yield_to_UTS_Ratio =
          (((demoRecords.get ⟨0, by simp [demoRecords]⟩).Yield_Strength /
              (demoRecords.get ⟨0, by simp [demoRecords]⟩).UTS : ℚ) :
            WithTop ℚ)) ∧
      ((200 : ℚ) / 2 ≠ 0 →
        ((rankedResult demoRecords 200 300 2).all.get
            ⟨0, by simp [rankedResult_all, demoRecords]⟩).Safety_Index =
          (((demoRecords.get ⟨0, by simp [demoRecords]⟩).Yield_Strength /
              ((200 : ℚ) / 2) : ℚ) : WithTop ℚ))) :=
  ⟨by norm_num,
    evaluate_all_enriched demoRecords 200 300 2
      (rankedResult demoRecords 200 300 2) (by norm_num)
      (evaluate_ok demoRecords 200 300 2 (by norm_num))
      0 (by simp [demoRecords]) (by simp [rankedResult_all, demoRecords])⟩

/-- C8: a record with `uts = 0` does not make the evaluation fail: the
call still returns the full result, that record's `Yield_to_UTS_Ratio`
is the positive-infinity sentinel `⊤` (numpy's `+inf` for the data
model's positive yield strengths), any record with nonzero `uts` keeps
the ordinary quotient, and in the sorted admitted rows a `⊤`-ratio row
is followed, among rows of equal `Ashby_Strength_Density`, only by other
`⊤`-ratio rows — under the ascending secondary key it is placed last
among its equals. -/
theorem evaluate_uts_zero_sentinel (records : List MaterialRecord)
    (rY rU fos : ℚ) (hfos : fos ≠ 0)
    (i : ℕ) (hi : i < records.length)
    (hy : 0 < (records.get ⟨i, hi⟩).Yield_Strength)
    (huts : (records.get ⟨i, hi⟩).UTS = 0)
    (hia : i < (rankedResult records rY rU fos).all.length)
    (j : ℕ) (hj : j < records.length)
    (hja : j < (rankedResult records rY rU fos).all.length)
    (hjuts : (records.get ⟨j, hj⟩).UTS ≠ 0) :
    evaluate records rY rU fos = .ok (rankedResult records rY rU fos) ∧
    ((rankedResult records rY rU fos).all.get
        ⟨i, hia⟩).Yield_to_UTS_Ratio = ⊤ ∧
    ((rankedResult records rY rU fos).all.get
        ⟨j, hja⟩).Yield_to_UTS_Ratio =
      (((records.get ⟨j, hj⟩).Yield_Strength /
          (records.get ⟨j, hj⟩).UTS : ℚ) : WithTop ℚ) ∧
    (rankedResult records rY rU fos).admitted.Pairwise fun a b =>
      a.Yield_to_UTS_Ratio = ⊤ →
      a.Ashby_Strength_Density = b.Ashby_Strength_Density →
      b.Yield_to_UTS_Ratio = ⊤ := by
  refine ⟨evaluate_ok records rY rU fos hfos, ?_, ?_, ?_⟩
  · rw [rankedResult_all_get records rY rU fos i hi hia]
    exact enrich_Ratio_top rY rU fos _ huts
  · rw [rankedResult_all_get records rY rU fos j hj hja]
    exact enrich_Ratio_of_ne rY rU fos _ hjuts
  · refine (admitted_pairwise_rankLe records rY rU fos).imp ?_
    rintro a b hab htop he
    rcases hab with h1 | ⟨_, hr⟩
    · exact absurd h1 (by rw [he]; exact lt_irrefl _)
    · exact top_le_iff.mp (htop ▸ hr)

theorem evaluate_uts_zero_sentinel_witness :
    ((2 : ℚ) ≠ 0 ∧
      0 < (sentinelRecords.get ⟨1, by simp [sentinelRecords]⟩).Yield_Strength ∧
      (sentinelRecords.get ⟨1, by simp [sentinelRecords]⟩).UTS = 0 ∧
      (sentinelRecords.get ⟨0, by simp [sentinelRecords]⟩).UTS ≠ 0) ∧
    (evaluate sentinelRecords 200 0 2 =
        .ok (rankedResult sentinelRecords 200 0 2) ∧
      ((rankedResult sentinelRecords 200 0 2).all.get
          ⟨1, by simp [rankedResult_all, sentinelRecords]⟩).Yield_to_UTS_Ratio =
        ⊤ ∧
      ((rankedResult sentinelRecords 200 0 2).all.get
          ⟨0, by simp [rankedResult_all, sentinelRecords]⟩).Yield_to_UTS_Ratio =
        (((sentinelRecords.get ⟨0, by simp [sentinelRecords]⟩).Yield_Strength /
            (sentinelRecords.get ⟨0, by simp [sentinelRecords]⟩).UTS : ℚ) :
          WithTop ℚ) ∧
      (rankedResult sentinelRecords 200 0 2).admitted.Pairwise fun a b =>
        a.Yield_to_UTS_Ratio = ⊤ →
        a.Ashby_Strength_Density = b.Ashby_Strength_Density →
        b.Yield_to_UTS_Ratio = ⊤) :=
  ⟨⟨by norm_num, by norm_num [sentinelRecords], by simp [sentinelRecords],
      by norm_num [sentinelRecords]⟩,
    evaluate_uts_zero_sentinel sentinelRecords 200 0 2 (by norm_num)
      1 (by simp [sentinelRecords]) (by norm_num [sentinelRecords])
      (by simp [sentinelRecords])
      (by simp [rankedResult_all, sentinelRecords])
      0 (by simp [sentinelRecords])
      (by simp [rankedResult_all, sentinelRecords])
      (by norm_num [sentinelRecords])⟩

/-- C3 is violated by the code: the click-to-highlight lookup of
src/app.py lines 155-157 is positional, not id-based.  In the
four-record scenario only ids 1 and 3 are admitted, so the admitted
("Selected") plotly trace lists them in order and clicking the point of
record id 3 reports `pointIndex = 1` within that trace; `df.iloc` then
returns the record at position 1 of the full frame — id 1, not the
clicked id 3 that the spec-modelled id-based `findById` returns. -/
theorem highlight_positional_lookup_bug :
    ((rankedResult clickRecords 100 100 2).all.map fun e => e.Selected) =
      [false, true, false, true] ∧
    pointIndexInTrace (rankedResult clickRecords 100 100 2).all 3 true = 1 ∧
    ((highlightClicked (rankedResult clickRecords 100 100 2).all
        (pointIndexInTrace (rankedResult clickRecords 100 100 2).all 3 true)).map
      fun e => e.id) = some 1 ∧
    ((findById (rankedResult clickRecords 100 100 2).all 3).map
      fun e => e.id) = some 3 := by
  refine ⟨?_, ?_, ?_, ?_⟩ <;>
    norm_num [rankedResult, enrich, clickRecords, pointIndexInTrace,
      highlightClicked, findById, List.filter, List.find?]
